import Mathlib

/-!
Verification development for the MskLang tree-walking interpreter
(Rust sources: token.rs, scanner.rs, ast.rs, parser.rs, environment.rs,
msk_value.rs, callable.rs, user_fun.rs, native_fun.rs, interpreter.rs).

The Rust code is shallowly embedded: machine floats (f64) are modelled as
rationals, the reference-counted mutable environment heap is modelled as a
store (a list of environments indexed by position), and possibly diverging
loops and recursions take an explicit fuel argument, with none meaning
that the fuel ran out. All definitions are executable so that concrete
programs can be evaluated inside proofs.
-/

namespace Msk

/-! ## Token model (token.rs)

The TokenType enumeration of token.rs, extended with the Break and
Continue variants that parser.rs refers to (the token.rs snapshot in the
repository omits them while the parser and interpreter use them).
-/

inductive TokenType where
  | LeftParen | RightParen | LeftBrace | RightBrace
  | Comma | Dot | Minus | Plus | Semicolon | Slash | Star
  | Bang | BangEqual
  | Equal | EqualEqual
  | Greater | GreaterEqual
  | Less | LessEqual
  | Identifier
  | String
  | Number
  | And | Class | Else | False | Fun | For | If | Nil | Or
  | Print | Return | Super | This | True | Var | While
  | Break | Continue
  | Eof
deriving DecidableEq, Repr

/-- Literal values attached to String and Number tokens; f64 is modelled
as a rational number. -/
inductive Literal where
  | Str (s : String)
  | Number (n : ℚ)
deriving DecidableEq, Repr

structure Token where
  token_type : TokenType
  lexeme : String
  literal : Option Literal
  line : Nat
deriving DecidableEq, Repr

/-! ## Scanner (scanner.rs)

The scanner walks the character list of the source text. Each loop
iteration of scan_tokens consumes at least one character; the fuel
argument of scan_loop bounds the number of iterations and source length
plus one is always enough. The inner while loops of string, number,
comment and identifier scanning are expressed with takeWhile and
dropWhile over the remaining characters, exactly as the Rust loops
consume them. Error reporting to stderr is modelled by the had_error
flag alone.
-/

/-- The keyword table of Scanner::identifier. Note that break and
continue are NOT in the table, exactly as in scanner.rs. -/
def keyword_type (s : String) : TokenType :=
  if s = ("and") then TokenType.And
  else if s = ("class") then TokenType.Class
  else if s = ("else") then TokenType.Else
  else if s = ("false") then TokenType.False
  else if s = ("for") then TokenType.For
  else if s = ("fun") then TokenType.Fun
  else if s = ("if") then TokenType.If
  else if s = ("nil") then TokenType.Nil
  else if s = ("or") then TokenType.Or
  else if s = ("print") then TokenType.Print
  else if s = ("return") then TokenType.Return
  else if s = ("super") then TokenType.Super
  else if s = ("this") then TokenType.This
  else if s = ("true") then TokenType.True
  else if s = ("var") then TokenType.Var
  else if s = ("while") then TokenType.While
  else TokenType.Identifier

/-- Digit list to natural number, as consumed by f64 parsing of a
numeric lexeme. -/
def nat_of_digits (l : List Char) : Nat :=
  l.foldl (fun a ch => a * 10 + (ch.toNat - ('0').toNat)) 0

/-- The numeric value of an integer part and a fraction part, modelling
lexeme.parse::<f64>() on the scanned digits. -/
def rat_of_number (intPart fracPart : List Char) : ℚ :=
  (nat_of_digits intPart : ℚ) + (nat_of_digits fracPart : ℚ) / (10 ^ fracPart.length)

structure ScanState where
  tokens : List Token
  line : Nat
  had_error : Bool

def is_ident_char (ch : Char) : Bool := ch.isAlphanum || ch = '_'

/-- The main scanning loop of Scanner::scan_tokens together with
Scanner::scan_token and the literal helpers. -/
def scan_loop : Nat → List Char → ScanState → Option (List Token × Bool)
  | 0, _, _ => none
  | Nat.succ _, [], s =>
    some (s.tokens ++ [⟨TokenType.Eof, (""), none, s.line⟩], s.had_error)
  | Nat.succ f, c :: rest, s =>
    let push := fun (tt : TokenType) (lx : String) (r : List Char) =>
      scan_loop f r { s with tokens := s.tokens ++ [⟨tt, lx, none, s.line⟩] }
    match c with
    | '(' => push TokenType.LeftParen ("(") rest
    | ')' => push TokenType.RightParen (")") rest
    | '{' => push TokenType.LeftBrace ("\x7b") rest
    | '}' => push TokenType.RightBrace ("\x7d") rest
    | ',' => push TokenType.Comma (",") rest
    | '.' => push TokenType.Dot (".") rest
    | '-' => push TokenType.Minus ("-") rest
    | '+' => push TokenType.Plus ("+") rest
    | ';' => push TokenType.Semicolon (";") rest
    | '*' => push TokenType.Star ("*") rest
    | '!' =>
      match rest with
      | '=' :: r2 => push TokenType.BangEqual ("!=") r2
      | _ => push TokenType.Bang ("!") rest
    | '=' =>
      match rest with
      | '=' :: r2 => push TokenType.EqualEqual ("==") r2
      | _ => push TokenType.Equal ("=") rest
    | '<' =>
      match rest with
      | '=' :: r2 => push TokenType.LessEqual ("<=") r2
      | _ => push TokenType.Less ("<") rest
    | '>' =>
      match rest with
      | '=' :: r2 => push TokenType.GreaterEqual (">=") r2
      | _ => push TokenType.Greater (">") rest
    | '/' =>
      match rest with
      | '/' :: r2 => scan_loop f (r2.dropWhile (fun ch => ch ≠ '\n')) s
      | _ => push TokenType.Slash ("/") rest
    | ' ' => scan_loop f rest s
    | '\r' => scan_loop f rest s
    | '\t' => scan_loop f rest s
    | '\n' => scan_loop f rest { s with line := s.line + 1 }
    | '"' =>
      let value := rest.takeWhile (fun ch => ch ≠ '"')
      let rest1 := rest.dropWhile (fun ch => ch ≠ '"')
      let line1 := s.line + (value.filter (fun ch => ch = '\n')).length
      match rest1 with
      | [] => scan_loop f [] { s with line := line1, had_error := true }
      | _ :: rest2 =>
        scan_loop f rest2
          { s with
            tokens := s.tokens ++
              [⟨TokenType.String, ("\"") ++ String.mk value ++ ("\""),
                some (Literal.Str (String.mk value)), line1⟩],
            line := line1 }
    | ch =>
      if ch.isDigit then
        let ds := rest.takeWhile Char.isDigit
        let rest1 := rest.dropWhile Char.isDigit
        match rest1 with
        | '.' :: r2 =>
          match r2 with
          | d :: _ =>
            if d.isDigit then
              let fs := r2.takeWhile Char.isDigit
              let rest2 := r2.dropWhile Char.isDigit
              scan_loop f rest2
                { s with tokens := s.tokens ++
                  [⟨TokenType.Number,
                    String.mk ((ch :: ds) ++ ('.' :: fs)),
                    some (Literal.Number (rat_of_number (ch :: ds) fs)), s.line⟩] }
            else
              scan_loop f rest1
                { s with tokens := s.tokens ++
                  [⟨TokenType.Number, String.mk (ch :: ds),
                    some (Literal.Number (rat_of_number (ch :: ds) [])), s.line⟩] }
          | [] =>
            scan_loop f rest1
              { s with tokens := s.tokens ++
                [⟨TokenType.Number, String.mk (ch :: ds),
                  some (Literal.Number (rat_of_number (ch :: ds) [])), s.line⟩] }
        | _ =>
          scan_loop f rest1
            { s with tokens := s.tokens ++
              [⟨TokenType.Number, String.mk (ch :: ds),
                some (Literal.Number (rat_of_number (ch :: ds) [])), s.line⟩] }
      else if ch.isAlpha || ch = '_' then
        let taild := rest.takeWhile is_ident_char
        let rest1 := rest.dropWhile is_ident_char
        let lex := String.mk (ch :: taild)
        scan_loop f rest1
          { s with tokens := s.tokens ++ [⟨keyword_type lex, lex, none, s.line⟩] }
      else
        scan_loop f rest { s with had_error := true }

/-- Scanner::scan_tokens on a source string. Source length plus one is
always enough fuel since every iteration consumes at least one
character. -/
def scan_tokens (src : String) : Option (List Token × Bool) :=
  scan_loop (src.length + 1) src.toList ⟨[], 1, false⟩

/-! ## AST model (ast.rs) -/

inductive Expr where
  | Unary (operator : Token) (right : Expr)
  | Binary (left : Expr) (operator : Token) (right : Expr)
  | Grouping (expression : Expr)
  | Literal (value : Token)
  | Variable (name : Token)
  | Assign (name : Token) (value : Expr)
  | Logical (left : Expr) (operator : Token) (right : Expr)
  | Call (callee : Expr) (paren : Token) (arguments : List Expr)

inductive Stmt where
  | Print (expression : Expr)
  | Expression (expression : Expr)
  | Var (name : Token) (initializer : Option Expr)
  | Block (statements : List Stmt)
  | If (name : Token) (condition : Expr) (then_branch : Stmt) (else_branch : Option Stmt)
  | While (name : Token) (condition : Expr) (body : Stmt)
  | For (name : Token) (initializer : Option Stmt) (condition : Option Expr)
        (increment : Option Stmt) (body : Stmt)
  | Break (name : Token)
  | Continue (name : Token)
  | Function (name : Token) (params : List Token) (body : Stmt)
  | Return (name : Token) (value : Option Expr)

/-! ## Parser (parser.rs)

The Parser structure holds the token list, the current position and the
sticky error flag. Rust indexing self.tokens[self.current] is modelled
with getD and a default Eof token; well-formed token lists end in Eof
and the position never passes it. The recursive descent productions can
fail to make progress on malformed input (the error paths consume no
token), so they are all driven by a fuel argument: none means the fuel
ran out. Error messages printed to stderr are modelled by the sticky
had_error flag alone.
-/

structure Parser where
  tokens : List Token
  current : Nat
  had_error : Bool

def eof_token : Token := ⟨TokenType.Eof, (""), none, 0⟩

def Parser.peek (p : Parser) : Token := p.tokens.getD p.current eof_token

def Parser.previous (p : Parser) : Token := p.tokens.getD (p.current - 1) eof_token

def Parser.is_at_end (p : Parser) : Bool := decide (p.peek.token_type = TokenType.Eof)

def Parser.check (p : Parser) (t : TokenType) : Bool :=
  !p.is_at_end && decide (p.peek.token_type = t)

def Parser.advance (p : Parser) : Parser :=
  if p.is_at_end then p else { p with current := p.current + 1 }

/-- Parser::error only matters to the model through the sticky flag. -/
def Parser.set_error (p : Parser) : Parser := { p with had_error := true }

/-- Parser::match_token: check each candidate type, consuming the token
on the first hit. -/
def Parser.match_token (p : Parser) (ts : List TokenType) : Bool × Parser :=
  if ts.any p.check then (true, p.advance) else (false, p)

/-- Parser::consume: consume a token of the given type, or record an
error without consuming anything and return peek. -/
def Parser.consume (p : Parser) (t : TokenType) : Parser × Token :=
  if p.check t then
    let q := p.advance
    (q, q.previous)
  else (p.set_error, p.peek)

/-- The recursive expression productions of parser.rs, one constructor
per production; the Loop variants carry the accumulated left operand of
the corresponding while loop, and jCallArgs / jCallFinish carry the
state of the argument-list loop inside Parser::call. -/
inductive ExprJob where
  | jExpression | jAssignment | jLogic | jEquality | jComparison
  | jTerm | jFactor | jUnary | jCall | jPrimary
  | jLogicLoop (e : Expr)
  | jComparisonLoop (e : Expr)
  | jTermLoop (e : Expr)
  | jFactorLoop (e : Expr)
  | jCallArgs (callee : Expr) (acc : List Expr)
  | jCallFinish (callee : Expr) (acc : List Expr)

/-- The statement productions of parser.rs; sBlockLoop carries the
statement list accumulated by the loop in block_statement. -/
inductive StmtJob where
  | sStatement | sWhile | sIf | sFor | sVar | sPrint
  | sBreak | sContinue | sExprStmt | sIncrStmt
  | sBlockLoop (acc : List Stmt)

/-- The expression grammar of parser.rs: expression, assignment, logic,
equality, comparison, term, factor, unary, call, primary. Every
recursive call decreases the fuel by one. -/
def run_expr : Nat → ExprJob → Parser → Option (Expr × Parser)
  | 0, _, _ => none
  | Nat.succ f, job, p =>
    match job with
    | .jExpression => run_expr f .jAssignment p
    | .jAssignment =>
      match run_expr f .jLogic p with
      | none => none
      | some (e, p1) =>
        let (m, p2) := p1.match_token [TokenType.Equal]
        if m then
          let equals := p2.previous
          match run_expr f .jAssignment p2 with
          | none => none
          | some (v, p3) =>
            match e with
            | Expr.Variable name => some (Expr.Assign name v, p3)
            | _ =>
              let _ := equals
              some (e, p3.set_error)
        else some (e, p1)
    | .jLogic =>
      match run_expr f .jEquality p with
      | none => none
      | some (e, p1) => run_expr f (.jLogicLoop e) p1
    | .jLogicLoop e =>
      let (m, p1) := p.match_token [TokenType.Or, TokenType.And]
      if m then
        let op := p1.previous
        match run_expr f .jEquality p1 with
        | none => none
        | some (r, p2) => run_expr f (.jLogicLoop (Expr.Logical e op r)) p2
      else some (e, p)
    | .jEquality =>
      match run_expr f .jComparison p with
      | none => none
      | some (e, p1) =>
        let (m, p2) := p1.match_token [TokenType.EqualEqual, TokenType.BangEqual]
        if m then
          let op := p2.previous
          match run_expr f .jComparison p2 with
          | none => none
          | some (r, p3) => some (Expr.Binary e op r, p3)
        else some (e, p1)
    | .jComparison =>
      match run_expr f .jTerm p with
      | none => none
      | some (e, p1) => run_expr f (.jComparisonLoop e) p1
    | .jComparisonLoop e =>
      let (m, p1) := p.match_token
        [TokenType.Greater, TokenType.GreaterEqual, TokenType.Less, TokenType.LessEqual]
      if m then
        let op := p1.previous
        match run_expr f .jTerm p1 with
        | none => none
        | some (r, p2) => run_expr f (.jComparisonLoop (Expr.Binary e op r)) p2
      else some (e, p)
    | .jTerm =>
      match run_expr f .jFactor p with
      | none => none
      | some (e, p1) => run_expr f (.jTermLoop e) p1
    | .jTermLoop e =>
      let (m, p1) := p.match_token [TokenType.Plus, TokenType.Minus]
      if m then
        let op := p1.previous
        match run_expr f .jFactor p1 with
        | none => none
        | some (r, p2) => run_expr f (.jTermLoop (Expr.Binary e op r)) p2
      else some (e, p)
    | .jFactor =>
      match run_expr f .jUnary p with
      | none => none
      | some (e, p1) => run_expr f (.jFactorLoop e) p1
    | .jFactorLoop e =>
      let (m, p1) := p.match_token [TokenType.Slash, TokenType.Star]
      if m then
        let op := p1.previous
        match run_expr f .jUnary p1 with
        | none => none
        | some (r, p2) => run_expr f (.jFactorLoop (Expr.Binary e op r)) p2
      else some (e, p)
    | .jUnary =>
      let (m, p1) := p.match_token [TokenType.Bang, TokenType.Minus]
      if m then
        let op := p1.previous
        match run_expr f .jUnary p1 with
        | none => none
        | some (r, p2) => some (Expr.Unary op r, p2)
      else run_expr f .jCall p
    | .jCall =>
      match run_expr f .jPrimary p with
      | none => none
      | some (callee, p1) =>
        let (m, p2) := p1.match_token [TokenType.LeftParen]
        if m then run_expr f (.jCallArgs callee []) p2
        else some (callee, p1)
    | .jCallArgs callee acc =>
      if p.check TokenType.RightParen then run_expr f (.jCallFinish callee acc) p
      else
        match run_expr f .jExpression p with
        | none => none
        | some (a, p1) =>
          if p1.check TokenType.RightParen then
            run_expr f (.jCallFinish callee (acc ++ [a])) p1
          else
            let (p2, _) := p1.consume TokenType.Comma
            run_expr f (.jCallArgs callee (acc ++ [a])) p2
    | .jCallFinish callee acc =>
      let (m, p1) := p.match_token [TokenType.RightParen]
      if m then some (Expr.Call callee p1.previous acc, p1)
      else some (callee, p1.set_error)
    | .jPrimary =>
      let (m, p1) := p.match_token
        [TokenType.False, TokenType.True, TokenType.Nil, TokenType.String, TokenType.Number]
      if m then some (Expr.Literal p1.previous, p1)
      else
        let (m2, p2) := p.match_token [TokenType.Identifier]
        if m2 then some (Expr.Variable p2.previous, p2)
        else
          let (m3, p3) := p.match_token [TokenType.LeftParen]
          if m3 then
            match run_expr f .jExpression p3 with
            | none => none
            | some (e, p4) =>
              let (p5, _) := p4.consume TokenType.RightParen
              some (Expr.Grouping e, p5)
          else some (Expr.Literal p.peek, p.set_error)

/-- One step of the statement grammar of parser.rs, parameterized by
the continuations for expression productions (goE) and statement
productions (go). Note that Parser::statement has NO case for fun
declarations or return statements: unmatched keywords fall through to
expression_statement. -/
def run_stmt_step (goE : ExprJob → Parser → Option (Expr × Parser))
    (go : StmtJob → Parser → Option (Stmt × Parser))
    (job : StmtJob) (p : Parser) : Option (Stmt × Parser) :=
    match job with
    | .sStatement =>
      let (m1, p1) := p.match_token [TokenType.While]
      if m1 then go .sWhile p1
      else
        let (m2, p2) := p1.match_token [TokenType.For]
        if m2 then go .sFor p2
        else
          let (m3, p3) := p2.match_token [TokenType.LeftBrace]
          if m3 then go (.sBlockLoop []) p3
          else
            let (m4, p4) := p3.match_token [TokenType.If]
            if m4 then go .sIf p4
            else
              let (m5, p5) := p4.match_token [TokenType.Var]
              if m5 then go .sVar p5
              else
                let (m6, p6) := p5.match_token [TokenType.Print]
                if m6 then go .sPrint p6
                else
                  let (m7, p7) := p6.match_token [TokenType.Break]
                  if m7 then go .sBreak p7
                  else
                    let (m8, p8) := p7.match_token [TokenType.Continue]
                    if m8 then go .sContinue p8
                    else go .sExprStmt p8
    | .sWhile =>
      let name := p.previous
      let (p1, _) := p.consume TokenType.LeftParen
      match goE .jExpression p1 with
      | none => none
      | some (cond, p2) =>
        let (p3, _) := p2.consume TokenType.RightParen
        match go .sStatement p3 with
        | none => none
        | some (body, p4) => some (Stmt.While name cond body, p4)
    | .sIf =>
      let name := p.previous
      let (p1, _) := p.consume TokenType.LeftParen
      match goE .jExpression p1 with
      | none => none
      | some (cond, p2) =>
        let (p3, _) := p2.consume TokenType.RightParen
        match go .sStatement p3 with
        | none => none
        | some (thenB, p4) =>
          let (m, p5) := p4.match_token [TokenType.Else]
          if m then
            match go .sStatement p5 with
            | none => none
            | some (elseB, p6) => some (Stmt.If name cond thenB (some elseB), p6)
          else some (Stmt.If name cond thenB none, p5)
    | .sFor =>
      let name := p.previous
      let (p1, _) := p.consume TokenType.LeftParen
      let initStep :=
        let (mv, pa) := p1.match_token [TokenType.Var]
        if mv then (go .sVar pa).map (fun (sp : Stmt × Parser) => (some sp.1, sp.2))
        else
          let (ms, pb) := pa.match_token [TokenType.Semicolon]
          if ms then some (none, pb)
          else (go .sExprStmt pb).map (fun (sp : Stmt × Parser) => (some sp.1, sp.2))
      match initStep with
      | none => none
      | some (ini, p2) =>
        let condStep :=
          if p2.check TokenType.Semicolon then some (none, p2)
          else (goE .jExpression p2).map (fun (ep : Expr × Parser) => (some ep.1, ep.2))
        match condStep with
        | none => none
        | some (cond, p3) =>
          let (p4, _) := p3.consume TokenType.Semicolon
          let incStep :=
            if p4.check TokenType.RightParen then some (none, p4)
            else (go .sIncrStmt p4).map (fun (sp : Stmt × Parser) => (some sp.1, sp.2))
          match incStep with
          | none => none
          | some (inc, p5) =>
            let (p6, _) := p5.consume TokenType.RightParen
            match go .sStatement p6 with
            | none => none
            | some (body, p7) => some (Stmt.For name ini cond inc body, p7)
    | .sVar =>
      let (p1, name) := p.consume TokenType.Identifier
      let initStep :=
        let (m, p2) := p1.match_token [TokenType.Equal]
        if m then (goE .jExpression p2).map (fun (ep : Expr × Parser) => (some ep.1, ep.2))
        else some (none, p2)
      match initStep with
      | none => none
      | some (ini, p3) =>
        let (p4, _) := p3.consume TokenType.Semicolon
        some (Stmt.Var name ini, p4)
    | .sPrint =>
      match goE .jExpression p with
      | none => none
      | some (e, p1) =>
        let (p2, _) := p1.consume TokenType.Semicolon
        some (Stmt.Print e, p2)
    | .sBreak =>
      let name := p.previous
      let (p1, _) := p.consume TokenType.Semicolon
      some (Stmt.Break name, p1)
    | .sContinue =>
      let name := p.previous
      let (p1, _) := p.consume TokenType.Semicolon
      some (Stmt.Continue name, p1)
    | .sExprStmt =>
      match goE .jExpression p with
      | none => none
      | some (e, p1) =>
        let (p2, _) := p1.consume TokenType.Semicolon
        some (Stmt.Expression e, p2)
    | .sIncrStmt =>
      match goE .jExpression p with
      | none => none
      | some (e, p1) => some (Stmt.Expression e, p1)
    | .sBlockLoop acc =>
      let (m, p1) := p.match_token [TokenType.RightBrace]
      if m then some (Stmt.Block acc, p1)
      else if p1.is_at_end then some (Stmt.Block acc, p1.set_error)
      else
        match go .sStatement p1 with
        | none => none
        | some (s, p2) => go (.sBlockLoop (acc ++ [s])) p2

/-- The statement grammar of parser.rs, driven by fuel. -/
def run_stmt : Nat → StmtJob → Parser → Option (Stmt × Parser)
  | 0, _, _ => none
  | Nat.succ f, job, p => run_stmt_step (run_expr f) (run_stmt f) job p

/-- The statement loop of Parser::parse: while not at end, parse one
statement. This loop makes no progress when statement consumes no
token, which is possible on malformed input. -/
def parse_loop : Nat → Parser → List Stmt → Option (List Stmt × Parser)
  | 0, _, _ => none
  | Nat.succ f, p, acc =>
    if p.is_at_end then some (acc, p)
    else
      match run_stmt f .sStatement p with
      | none => none
      | some (s, p1) => parse_loop f p1 (acc ++ [s])

/-- Parser::parse. -/
def parse (f : Nat) (tokens : List Token) : Option (Option (List Stmt) × Bool) :=
  let p : Parser := ⟨tokens, 0, false⟩
  if p.peek.token_type = TokenType.Eof then some (none, p.had_error)
  else
    match parse_loop f p [] with
    | none => none
    | some (stmts, p1) => if p1.had_error then some (none, true) else some (some stmts, false)

/-- Parser::parse_expr. -/
def parse_expr (f : Nat) (tokens : List Token) : Option (Option Expr × Bool) :=
  let p : Parser := ⟨tokens, 0, false⟩
  if p.peek.token_type = TokenType.Eof then some (none, p.had_error)
  else
    match run_expr f .jExpression p with
    | none => none
    | some (e, p1) => if p1.had_error then some (none, true) else some (some e, false)

/-! ## Values, callables, environments (msk_value.rs, callable.rs,
user_fun.rs, native_fun.rs, environment.rs)

Rc of RefCell of Environment is modelled by a store: a list of
environments addressed by position, with the parent link an index into
the same store. A UserFunction closure therefore carries the index of
its captured environment. The HashMap of an environment is an
association list whose lookup returns the first (most recent) binding,
and insertion conses a new binding, which matches overwrite semantics.
-/

/-- Callable values (callable.rs): either the clock native function of
native_fun.rs or a user function of user_fun.rs. The closure field is
the store index of the environment captured at definition time. -/
inductive CallableVal where
  | ClockNative
  | UserFunction (name : String) (params : List Token) (body : Stmt) (closure : Nat)

/-- The value model of msk_value.rs, with f64 modelled as a rational. -/
inductive MskValue where
  | Float (n : ℚ)
  | Boolean (b : Bool)
  | String (s : String)
  | Callable (f : CallableVal)
  | Nil

/-- MskValue::is_true: Nil and false are falsy, everything else truthy. -/
def MskValue.is_true : MskValue → Bool
  | .Boolean b => b
  | .Nil => false
  | _ => true

/-- Callable::arity. -/
def CallableVal.arity : CallableVal → Nat
  | .ClockNative => 0
  | .UserFunction _ params _ _ => params.length

/-- control_flow.rs. -/
inductive ControlFlow where
  | Break
  | Continue
  | Return (v : MskValue)

/-- interpreter.rs RuntimeError: a message or a control-flow signal
threaded through the error channel. -/
inductive RuntimeError where
  | Error (msg : String)
  | Control (c : ControlFlow)

/-- One environment frame of environment.rs: bindings plus an optional
parent index into the store. -/
structure Environment where
  values : List (String × MskValue)
  parent : Option Nat

/-- HashMap::get on the association list. -/
def lookup_values (vs : List (String × MskValue)) (n : String) : Option MskValue :=
  (vs.find? (fun pr => pr.1 = n)).map (fun pr => pr.2)

/-- HashMap::insert with overwrite semantics: cons the new binding so
that lookup finds it first. -/
def insert_value (vs : List (String × MskValue)) (n : String) (v : MskValue) :
    List (String × MskValue) :=
  (n, v) :: vs

/-- The interpreter state: the current environment index together with
the store of all environments ever created (the Rc heap). -/
structure Interpreter where
  store : List Environment
  env : Nat

def empty_env : Environment := ⟨[], none⟩

/-- Environment::define on the current scope of the interpreter. -/
def Interpreter.define (it : Interpreter) (n : String) (v : MskValue) : Interpreter :=
  let e := it.store.getD it.env empty_env
  { it with store := it.store.set it.env ⟨insert_value e.values n v, e.parent⟩ }

/-- Interpreter::begin_scope: the new scope has the current environment
as its parent (Environment::new_with_parent). -/
def Interpreter.begin_scope (it : Interpreter) : Interpreter :=
  ⟨it.store ++ [⟨[], some it.env⟩], it.store.length⟩

/-- Interpreter::end_scope: restore the parent environment; with no
parent, switch to a fresh empty environment (Environment::new). -/
def Interpreter.end_scope (it : Interpreter) : Interpreter :=
  match (it.store.getD it.env empty_env).parent with
  | some par => ⟨it.store, par⟩
  | none => ⟨it.store ++ [empty_env], it.store.length⟩

/-- Environment::get_from_parent: look the name up walking the parent
chain. The fuel bounds the chain length; the store length is always
enough because every parent link points to an earlier store entry. -/
def get_from_parent : Nat → List Environment → Environment → String → Option MskValue
  | 0, _, _, _ => none
  | Nat.succ f, store, e, n =>
    match e.parent with
    | none => none
    | some pid =>
      let pe := store.getD pid empty_env
      match lookup_values pe.values n with
      | some v => some v
      | none => get_from_parent f store pe n

/-- Environment::get on the current scope of the interpreter. -/
def Interpreter.get (it : Interpreter) (n : String) (line : Nat) : Except String MskValue :=
  let e := it.store.getD it.env empty_env
  match lookup_values e.values n with
  | some v => .ok v
  | none =>
    match get_from_parent it.store.length it.store e n with
    | some v => .ok v
    | none =>
      .error (("[line ") ++ toString line ++ ("] Undefined variable \x27") ++ n ++ ("\x27."))

/-- Environment::assign walking the parent chain; mutates the first
scope that binds the name, errors if none does. The fuel bounds the
chain length as in get_from_parent. -/
def assign_env : Nat → List Environment → Nat → String → MskValue →
    Except String (List Environment)
  | 0, _, _, n, _ => .error (("Undefined variable \x27") ++ n ++ ("\x27."))
  | Nat.succ f, store, id, n, v =>
    let e := store.getD id empty_env
    if (lookup_values e.values n).isSome then
      .ok (store.set id ⟨insert_value e.values n v, e.parent⟩)
    else
      match e.parent with
      | none => .error (("Undefined variable \x27") ++ n ++ ("\x27."))
      | some pid => assign_env f store pid n v

/-- Environment::assign on the current scope of the interpreter. -/
def Interpreter.assign (it : Interpreter) (n : String) (v : MskValue) :
    Except String Interpreter :=
  match assign_env it.store.length it.store it.env n v with
  | .ok store1 => .ok { it with store := store1 }
  | .error msg => .error msg

/-- Interpreter::new: the global environment pre-populated with the
clock native function by the register_natives macro. -/
def initial_interpreter : Interpreter :=
  ⟨[⟨[(("clock"), MskValue.Callable CallableVal.ClockNative)], none⟩], 0⟩

/-! ## Evaluator (interpreter.rs) -/

/-- The Rust Debug rendering of a TokenType, used by one error message
of Interpreter::evaluate. -/
def debug_str : TokenType → String
  | .LeftParen => ("LeftParen") | .RightParen => ("RightParen")
  | .LeftBrace => ("LeftBrace") | .RightBrace => ("RightBrace")
  | .Comma => ("Comma") | .Dot => ("Dot") | .Minus => ("Minus")
  | .Plus => ("Plus") | .Semicolon => ("Semicolon") | .Slash => ("Slash")
  | .Star => ("Star") | .Bang => ("Bang") | .BangEqual => ("BangEqual")
  | .Equal => ("Equal") | .EqualEqual => ("EqualEqual")
  | .Greater => ("Greater") | .GreaterEqual => ("GreaterEqual")
  | .Less => ("Less") | .LessEqual => ("LessEqual")
  | .Identifier => ("Identifier") | .String => ("String") | .Number => ("Number")
  | .And => ("And") | .Class => ("Class") | .Else => ("Else") | .False => ("False")
  | .Fun => ("Fun") | .For => ("For") | .If => ("If") | .Nil => ("Nil")
  | .Or => ("Or") | .Print => ("Print") | .Return => ("Return") | .Super => ("Super")
  | .This => ("This") | .True => ("True") | .Var => ("Var") | .While => ("While")
  | .Break => ("Break") | .Continue => ("Continue") | .Eof => ("Eof")

/-- The string rendering of a literal payload, as used by the String
arm of the Literal case of Interpreter::evaluate. -/
def Literal.to_str : Literal → String
  | .Str s => s
  | .Number n => toString n

/-- Interpreter::evaluate for Expr::Literal (a pure function of the
token). The Rust unwrap aborts on a missing literal payload; this is
modelled as a runtime error, reachable only on ill-formed tokens. -/
def evaluate_literal (value : Token) : Except RuntimeError MskValue :=
  match value.token_type with
  | .String =>
    match value.literal with
    | some lit => .ok (MskValue.String lit.to_str)
    | none => .error (.Error ("unwrap failed: missing literal payload"))
  | .Number =>
    match value.literal with
    | some (Literal.Number n) => .ok (MskValue.Float n)
    | some (Literal.Str _) =>
      .error (.Error (("Unexpected number type for token: ") ++ value.lexeme))
    | none => .error (.Error ("unwrap failed: missing literal payload"))
  | .True => .ok (MskValue.Boolean true)
  | .False => .ok (MskValue.Boolean false)
  | .Nil => .ok MskValue.Nil
  | tt => .error (.Error (("Unexpected token type: ") ++ debug_str tt))

/-- Interpreter::evaluate_binary: a pure function of the operator token
and the two already-evaluated operand values. -/
def evaluate_binary (operator : Token) (left right : MskValue) :
    Except RuntimeError MskValue :=
  match operator.token_type with
  | .Plus =>
    match left, right with
    | MskValue.Float l, MskValue.Float r => .ok (MskValue.Float (l + r))
    | MskValue.String l, MskValue.String r => .ok (MskValue.String (l ++ r))
    | _, _ =>
      .error (.Error (("[line ") ++ toString operator.line ++
        ("] Operands must be two numbers or two strings for \x27+\x27 operator.")))
  | .Minus =>
    match left, right with
    | MskValue.Float l, MskValue.Float r => .ok (MskValue.Float (l - r))
    | _, _ =>
      .error (.Error (("[line ") ++ toString operator.line ++
        ("] Operands must be numbers for \x27-\x27 operator.")))
  | .Star =>
    match left, right with
    | MskValue.Float l, MskValue.Float r => .ok (MskValue.Float (l * r))
    | _, _ =>
      .error (.Error (("[line ") ++ toString operator.line ++
        ("] Operands must be numbers for \x27*\x27 operator.")))
  | .Slash =>
    match left, right with
    | MskValue.Float l, MskValue.Float r =>
      if r = 0 then
        .error (.Error (("[line ") ++ toString operator.line ++
          ("] Division by zero is not allowed.")))
      else .ok (MskValue.Float (l / r))
    | _, _ =>
      .error (.Error (("[line ") ++ toString operator.line ++
        ("] Operands must be numbers for \x27/\x27 operator.")))
  | .Greater =>
    match left, right with
    | MskValue.Float l, MskValue.Float r => .ok (MskValue.Boolean (decide (r < l)))
    | _, _ =>
      .error (.Error (("[line ") ++ toString operator.line ++
        ("] Operands must be numbers for \x27>\x27 operator.")))
  | .GreaterEqual =>
    match left, right with
    | MskValue.Float l, MskValue.Float r => .ok (MskValue.Boolean (decide (r ≤ l)))
    | _, _ =>
      .error (.Error (("[line ") ++ toString operator.line ++
        ("] Operands must be numbers for \x27>=\x27 operator.")))
  | .Less =>
    match left, right with
    | MskValue.Float l, MskValue.Float r => .ok (MskValue.Boolean (decide (l < r)))
    | _, _ =>
      .error (.Error (("[line ") ++ toString operator.line ++
        ("] Operands must be numbers for \x27<\x27 operator.")))
  | .LessEqual =>
    match left, right with
    | MskValue.Float l, MskValue.Float r => .ok (MskValue.Boolean (decide (l ≤ r)))
    | _, _ =>
      .error (.Error (("[line ") ++ toString operator.line ++
        ("] Operands must be numbers for \x27<=\x27 operator.")))
  | .EqualEqual =>
    match left, right with
    | MskValue.Float l, MskValue.Float r => .ok (MskValue.Boolean (decide (l = r)))
    | MskValue.String l, MskValue.String r => .ok (MskValue.Boolean (decide (l = r)))
    | MskValue.Boolean l, MskValue.Boolean r => .ok (MskValue.Boolean (decide (l = r)))
    | _, _ => .ok (MskValue.Boolean false)
  | .BangEqual =>
    match left, right with
    | MskValue.Float l, MskValue.Float r => .ok (MskValue.Boolean (decide (l ≠ r)))
    | MskValue.String l, MskValue.String r => .ok (MskValue.Boolean (decide (l ≠ r)))
    | MskValue.Boolean l, MskValue.Boolean r => .ok (MskValue.Boolean (decide (l ≠ r)))
    | _, _ => .ok (MskValue.Boolean true)
  | _ =>
    .error (.Error (("[line ") ++ toString operator.line ++
      ("] Unsupported binary operator: ") ++ debug_str operator.token_type))

/-- Interpreter::evaluate_unary. -/
def evaluate_unary (operator : Token) (value : MskValue) :
    Except RuntimeError MskValue :=
  match operator.token_type with
  | .Minus =>
    match value with
    | MskValue.Float n => .ok (MskValue.Float (-n))
    | _ =>
      .error (.Error (("[line ") ++ toString operator.line ++
        ("] Operand must be a number.")))
  | .Bang => .ok (MskValue.Boolean (!value.is_true))
  | _ =>
    .error (.Error (("[line ") ++ toString operator.line ++
      ("] Unsupported unary operator")))

/-- The result of one evaluator task: either a single value (evaluate,
interpret) or a list of argument values (the argument loop of the Call
case of Interpreter::evaluate). -/
inductive Answer where
  | aVal (v : MskValue)
  | aVals (vs : List MskValue)

/-- The mutually recursive tasks of interpreter.rs and user_fun.rs.
jEval is Interpreter::evaluate on one expression; jEvalArgs is the
argument-evaluation loop of the Call case; jDispatch is the
callable-and-arity check of the Call case; jCall is Callable::call
(ClockNative::call or UserFunction::call); jExec is
Interpreter::interpret on a statement slice; jWhileLoop is the while
loop of the While case; jForLoopSome and jForLoopNone are the two
loops of the For case (with and without a condition). -/
inductive Job where
  | jEval (e : Expr)
  | jEvalArgs (es : List Expr) (acc : List MskValue)
  | jDispatch (paren : Token) (callee : MskValue) (args : List MskValue)
  | jCall (fn : CallableVal) (args : List MskValue)
  | jExec (ss : List Stmt)
  | jWhileLoop (cond : Expr) (body : Stmt)
  | jForLoopSome (cond : Expr) (inc : Option Stmt) (body : Stmt)
  | jForLoopNone (inc : Option Stmt) (body : Stmt)

/-- The evaluator. The clock parameter is the wall-clock reading that
ClockNative::call would return; the fuel bounds the recursion and loop
depth, with none meaning it ran out. Print output to stdout is not
modelled (the printed expression is still evaluated). Every structural
detail follows interpreter.rs: in particular the Expression and Return
arms of jExec return immediately and ScopeGuard begin and end scope
brackets every Block, For and UserFunction::call on every exit path. -/
def run (clock : ℚ) : Nat → Interpreter → Job → Option (Interpreter × Except RuntimeError Answer)
  | 0, _, _ => none
  | Nat.succ f, it, job =>
    match job with
    | .jEval e =>
      match e with
      | Expr.Unary operator right =>
        match run clock f it (.jEval right) with
        | none => none
        | some (it1, .error er) => some (it1, .error er)
        | some (it1, .ok (.aVal v)) =>
          match evaluate_unary operator v with
          | .ok r => some (it1, .ok (.aVal r))
          | .error er => some (it1, .error er)
        | some (_, .ok (.aVals _)) => none
      | Expr.Binary left operator right =>
        match run clock f it (.jEval left) with
        | none => none
        | some (it1, .error er) => some (it1, .error er)
        | some (it1, .ok (.aVal lv)) =>
          match run clock f it1 (.jEval right) with
          | none => none
          | some (it2, .error er) => some (it2, .error er)
          | some (it2, .ok (.aVal rv)) =>
            match evaluate_binary operator lv rv with
            | .ok r => some (it2, .ok (.aVal r))
            | .error er => some (it2, .error er)
          | some (_, .ok (.aVals _)) => none
        | some (_, .ok (.aVals _)) => none
      | Expr.Grouping inner => run clock f it (.jEval inner)
      | Expr.Literal value =>
        match evaluate_literal value with
        | .ok v => some (it, .ok (.aVal v))
        | .error er => some (it, .error er)
      | Expr.Variable name =>
        match it.get name.lexeme name.line with
        | .ok v => some (it, .ok (.aVal v))
        | .error msg => some (it, .error (.Error msg))
      | Expr.Assign name value =>
        match run clock f it (.jEval value) with
        | none => none
        | some (it1, .error er) => some (it1, .error er)
        | some (it1, .ok (.aVal v)) =>
          match it1.assign name.lexeme v with
          | .ok it2 => some (it2, .ok (.aVal v))
          | .error msg => some (it1, .error (.Error msg))
        | some (_, .ok (.aVals _)) => none
      | Expr.Logical left operator right =>
        match run clock f it (.jEval left) with
        | none => none
        | some (it1, .error er) => some (it1, .error er)
        | some (it1, .ok (.aVal lv)) =>
          let shortcut :=
            if operator.token_type = TokenType.Or then lv.is_true
            else if operator.token_type = TokenType.And then !lv.is_true
            else false
          if shortcut then some (it1, .ok (.aVal lv))
          else
            match run clock f it1 (.jEval right) with
            | none => none
            | some (it2, .error er) => some (it2, .error er)
            | some (it2, .ok (.aVal rv)) => some (it2, .ok (.aVal rv))
            | some (_, .ok (.aVals _)) => none
        | some (_, .ok (.aVals _)) => none
      | Expr.Call callee paren arguments =>
        match run clock f it (.jEval callee) with
        | none => none
        | some (it1, .error er) => some (it1, .error er)
        | some (it1, .ok (.aVal cv)) =>
          match run clock f it1 (.jEvalArgs arguments []) with
          | none => none
          | some (it2, .error er) => some (it2, .error er)
          | some (it2, .ok (.aVals args)) => run clock f it2 (.jDispatch paren cv args)
          | some (_, .ok (.aVal _)) => none
        | some (_, .ok (.aVals _)) => none
    | .jEvalArgs es acc =>
      match es with
      | [] => some (it, .ok (.aVals acc))
      | e :: rest =>
        match run clock f it (.jEval e) with
        | none => none
        | some (it1, .error er) => some (it1, .error er)
        | some (it1, .ok (.aVal v)) => run clock f it1 (.jEvalArgs rest (acc ++ [v]))
        | some (_, .ok (.aVals _)) => none
    | .jDispatch paren cv args =>
      match cv with
      | MskValue.Callable fn =>
        if args.length ≠ fn.arity then
          some (it, .error (.Error (("[line ") ++ toString paren.line ++
            ("] Expected ") ++ toString fn.arity ++ (" arguments but got ") ++
            toString args.length ++ ("."))))
        else run clock f it (.jCall fn args)
      | _ =>
        some (it, .error (.Error (("[line ") ++ toString paren.line ++
          ("] Can only call functions and classes."))))
    | .jCall fn args =>
      match fn with
      | .ClockNative => some (it, .ok (.aVal (MskValue.Float clock)))
      | .UserFunction _ params body _ =>
        if args.length ≠ params.length then
          some (it, .error (.Error (("Expected ") ++ toString params.length ++
            (" arguments but got ") ++ toString args.length ++ ("."))))
        else
          let it1 := it.begin_scope
          let it2 := (params.zip args).foldl
            (fun s pa => Interpreter.define s pa.1.lexeme pa.2) it1
          match body with
          | Stmt.Block statements =>
            match run clock f it2 (.jExec statements) with
            | none => none
            | some (it3, .ok a) => some (it3.end_scope, .ok a)
            | some (it3, .error er) => some (it3.end_scope, .error er)
          | _ =>
            some (it2.end_scope, .error (.Error ("Function body must be a block statement.")))
    | .jExec ss =>
      match ss with
      | [] => some (it, .ok (.aVal MskValue.Nil))
      | s :: rest =>
        match s with
        | Stmt.Expression expression => run clock f it (.jEval expression)
        | Stmt.Print expression =>
          match run clock f it (.jEval expression) with
          | none => none
          | some (it1, .error er) => some (it1, .error er)
          | some (it1, .ok _) => run clock f it1 (.jExec rest)
        | Stmt.Var name initializer =>
          match initializer with
          | none => run clock f (it.define name.lexeme MskValue.Nil) (.jExec rest)
          | some ini =>
            match run clock f it (.jEval ini) with
            | none => none
            | some (it1, .error er) => some (it1, .error er)
            | some (it1, .ok (.aVal v)) =>
              run clock f (it1.define name.lexeme v) (.jExec rest)
            | some (_, .ok (.aVals _)) => none
        | Stmt.Block statements =>
          match run clock f it.begin_scope (.jExec statements) with
          | none => none
          | some (it1, .error er) => some (it1.end_scope, .error er)
          | some (it1, .ok _) => run clock f it1.end_scope (.jExec rest)
        | Stmt.If _ condition then_branch else_branch =>
          match run clock f it (.jEval condition) with
          | none => none
          | some (it1, .error er) => some (it1, .error er)
          | some (it1, .ok (.aVal v)) =>
            if v.is_true then run clock f it1 (.jExec [then_branch])
            else
              match else_branch with
              | some eb => run clock f it1 (.jExec [eb])
              | none => run clock f it1 (.jExec rest)
          | some (_, .ok (.aVals _)) => none
        | Stmt.While _ condition body =>
          match run clock f it (.jWhileLoop condition body) with
          | none => none
          | some (it1, .error er) => some (it1, .error er)
          | some (it1, .ok _) => run clock f it1 (.jExec rest)
        | Stmt.For _ initializer condition increment body =>
          let it1 := it.begin_scope
          let initStep :=
            match initializer with
            | none => some (it1, Except.ok (Answer.aVal MskValue.Nil))
            | some ini => run clock f it1 (.jExec [ini])
          match initStep with
          | none => none
          | some (it2, .error er) => some (it2.end_scope, .error er)
          | some (it2, .ok _) =>
            let loopStep :=
              match condition with
              | some c => run clock f it2 (.jForLoopSome c increment body)
              | none => run clock f it2 (.jForLoopNone increment body)
            match loopStep with
            | none => none
            | some (it3, .error er) => some (it3.end_scope, .error er)
            | some (it3, .ok _) => run clock f it3.end_scope (.jExec rest)
        | Stmt.Break _ => some (it, .error (.Control ControlFlow.Break))
        | Stmt.Continue _ => some (it, .error (.Control ControlFlow.Continue))
        | Stmt.Function name params body =>
          run clock f
            (it.define name.lexeme
              (MskValue.Callable (CallableVal.UserFunction name.lexeme params body it.env)))
            (.jExec rest)
        | Stmt.Return _ value =>
          match value with
          | none => some (it, .ok (.aVal MskValue.Nil))
          | some v => run clock f it (.jEval v)
    | .jWhileLoop cond body =>
      match run clock f it (.jEval cond) with
      | none => none
      | some (it1, .error er) => some (it1, .error er)
      | some (it1, .ok (.aVal v)) =>
        if v.is_true then
          match run clock f it1 (.jExec [body]) with
          | none => none
          | some (it2, .ok _) => run clock f it2 (.jWhileLoop cond body)
          | some (it2, .error (.Control ControlFlow.Break)) =>
            some (it2, .ok (.aVal MskValue.Nil))
          | some (it2, .error (.Control ControlFlow.Continue)) =>
            run clock f it2 (.jWhileLoop cond body)
          | some (it2, .error er) => some (it2, .error er)
        else some (it1, .ok (.aVal MskValue.Nil))
      | some (_, .ok (.aVals _)) => none
    | .jForLoopSome cond inc body =>
      match run clock f it (.jEval cond) with
      | none => none
      | some (it1, .error er) => some (it1, .error er)
      | some (it1, .ok (.aVal v)) =>
        if v.is_true then
          match run clock f it1 (.jExec [body]) with
          | none => none
          | some (it2, .ok _) =>
            match inc with
            | none => run clock f it2 (.jForLoopSome cond inc body)
            | some istmt =>
              match run clock f it2 (.jExec [istmt]) with
              | none => none
              | some (it3, .error er) => some (it3, .error er)
              | some (it3, .ok _) => run clock f it3 (.jForLoopSome cond inc body)
          | some (it2, .error (.Control ControlFlow.Break)) =>
            some (it2, .ok (.aVal MskValue.Nil))
          | some (it2, .error (.Control ControlFlow.Continue)) =>
            match inc with
            | none => run clock f it2 (.jForLoopSome cond inc body)
            | some istmt =>
              match run clock f it2 (.jExec [istmt]) with
              | none => none
              | some (it3, .error er) => some (it3, .error er)
              | some (it3, .ok _) => run clock f it3 (.jForLoopSome cond inc body)
          | some (it2, .error er) => some (it2, .error er)
        else some (it1, .ok (.aVal MskValue.Nil))
      | some (_, .ok (.aVals _)) => none
    | .jForLoopNone inc body =>
      match run clock f it (.jExec [body]) with
      | none => none
      | some (it2, .ok _) =>
        match inc with
        | none => run clock f it2 (.jForLoopNone inc body)
        | some istmt =>
          match run clock f it2 (.jExec [istmt]) with
          | none => none
          | some (it3, .error er) => some (it3, .error er)
          | some (it3, .ok _) => run clock f it3 (.jForLoopNone inc body)
      | some (it2, .error (.Control ControlFlow.Break)) =>
        some (it2, .ok (.aVal MskValue.Nil))
      | some (it2, .error (.Control ControlFlow.Continue)) =>
        match inc with
        | none => run clock f it2 (.jForLoopNone inc body)
        | some istmt =>
          match run clock f it2 (.jExec [istmt]) with
          | none => none
          | some (it3, .error er) => some (it3, .error er)
          | some (it3, .ok _) => run clock f it3 (.jForLoopNone inc body)
      | some (it2, .error er) => some (it2, .error er)

/-! ## Reference semantics for the For statement

Modelled from the spec, for comparison with the For case of run: one
unified loop over an optional condition that defaults to always-true,
with the increment evaluated after every iteration, including an
iteration ended by a Continue signal but not one ended by a Break
signal. -/

/-- The unified reference loop, built from the spec description of For:
it behaves like While over the condition, defaulting to always-true
when the condition is omitted, and additionally evaluates the increment
after every iteration, including after a Continue signal but not after
a Break signal. -/
def forRefLoop (clock : ℚ) : Nat → Interpreter → Option Expr → Option Stmt → Stmt →
    Option (Interpreter × Except RuntimeError Answer)
  | 0, _, _, _, _ => none
  | Nat.succ f, it, cond, inc, body =>
    let condStep :=
      match cond with
      | none => some (it, Except.ok (Answer.aVal (MskValue.Boolean true)))
      | some c => run clock f it (.jEval c)
    match condStep with
    | none => none
    | some (it1, .error er) => some (it1, .error er)
    | some (it1, .ok (.aVal v)) =>
      if v.is_true then
        match run clock f it1 (.jExec [body]) with
        | none => none
        | some (it2, .ok _) =>
          match inc with
          | none => forRefLoop clock f it2 cond inc body
          | some istmt =>
            match run clock f it2 (.jExec [istmt]) with
            | none => none
            | some (it3, .error er) => some (it3, .error er)
            | some (it3, .ok _) => forRefLoop clock f it3 cond inc body
        | some (it2, .error (.Control ControlFlow.Break)) =>
          some (it2, .ok (.aVal MskValue.Nil))
        | some (it2, .error (.Control ControlFlow.Continue)) =>
          match inc with
          | none => forRefLoop clock f it2 cond inc body
          | some istmt =>
            match run clock f it2 (.jExec [istmt]) with
            | none => none
            | some (it3, .error er) => some (it3, .error er)
            | some (it3, .ok _) => forRefLoop clock f it3 cond inc body
        | some (it2, .error er) => some (it2, .error er)
      else some (it1, .ok (.aVal MskValue.Nil))
    | some (_, .ok (.aVals _)) => none

/-- Reference semantics for a whole For statement, modelled from the
spec: the initializer executes exactly once inside a dedicated child
scope that encloses the whole loop, then the unified loop runs, and
the scope is closed on every exit path. -/
def forReference (clock : ℚ) (f : Nat) (it : Interpreter) (initializer : Option Stmt)
    (condition : Option Expr) (increment : Option Stmt) (body : Stmt) :
    Option (Interpreter × Except RuntimeError Answer) :=
  let it1 := it.begin_scope
  let initStep :=
    match initializer with
    | none => some (it1, Except.ok (Answer.aVal MskValue.Nil))
    | some ini => run clock f it1 (.jExec [ini])
  match initStep with
  | none => none
  | some (it2, .error er) => some (it2.end_scope, .error er)
  | some (it2, .ok _) =>
    match forRefLoop clock f it2 condition increment body with
    | none => none
    | some (it3, .error er) => some (it3.end_scope, .error er)
    | some (it3, .ok a) => some (it3.end_scope, .ok a)

/-! ## Concrete fixtures used by the claim theorems -/

def tk_ident (s : String) (ln : Nat) : Token := ⟨TokenType.Identifier, s, none, ln⟩

def num_lit (n : ℚ) (s : String) (ln : Nat) : Expr :=
  Expr.Literal ⟨TokenType.Number, s, some (Literal.Number n), ln⟩

def eq_token (line : Nat) : Token := ⟨TokenType.EqualEqual, ("=="), none, line⟩

def neq_token (line : Nat) : Token := ⟨TokenType.BangEqual, ("!="), none, line⟩

def slash_token (line : Nat) : Token := ⟨TokenType.Slash, ("/"), none, line⟩

/-- The spec classification used to state the equality claim: pairs of
values of the same type among Float, String and Boolean. Every other
pair is a cross-type pair, a pair involving Nil, or a pair of
callables. -/
def same_type_fsb : MskValue → MskValue → Bool
  | .Float _, .Float _ => true
  | .String _, .String _ => true
  | .Boolean _, .Boolean _ => true
  | _, _ => false

/-- Substring test: has_sub pat hay is true when pat occurs inside hay
as a contiguous run of characters. -/
def has_sub (pat : List Char) : List Char → Bool
  | [] => pat.isPrefixOf []
  | c :: t => pat.isPrefixOf (c :: t) || has_sub pat t

/-- A program in which a zero-parameter function f reads the free
variable x and stores it into the global r, and is called from a block
that declares a local x shadowing the global one. Under lexical
scoping (the captured closure) the call writes 1; under dynamic scoping
(the caller environment) it writes 2. -/
def c1_program : List Stmt :=
  [ Stmt.Var (tk_ident ("x") 1) (some (num_lit 1 ("1") 1)),
    Stmt.Var (tk_ident ("r") 2) (some (num_lit 0 ("0") 2)),
    Stmt.Function (tk_ident ("f") 3) []
      (Stmt.Block [Stmt.Expression
        (Expr.Assign (tk_ident ("r") 3) (Expr.Variable (tk_ident ("x") 3)))]),
    Stmt.Block
      [ Stmt.Var (tk_ident ("x") 5) (some (num_lit 2 ("2") 5)),
        Stmt.Expression
          (Expr.Call (Expr.Variable (tk_ident ("f") 6)) ⟨TokenType.RightParen, (")"), none, 6⟩ []) ],
    Stmt.Expression (Expr.Variable (tk_ident ("r") 7)) ]

/-- Declaring a two-parameter function g and calling it with one
argument at line 7. -/
def c9_program : List Stmt :=
  [ Stmt.Function (tk_ident ("g") 1) [tk_ident ("a") 1, tk_ident ("b") 1] (Stmt.Block []),
    Stmt.Expression
      (Expr.Call (Expr.Variable (tk_ident ("g") 7)) ⟨TokenType.RightParen, (")"), none, 7⟩
        [num_lit 1 ("1") 7]) ]

/-- The token sequence of the source text ) followed by Eof. -/
def c3_tokens : List Token :=
  [⟨TokenType.RightParen, (")"), none, 1⟩, ⟨TokenType.Eof, (""), none, 1⟩]

/-- The token sequence of fun f() with braces, ending in Eof. -/
def c2_fun_tokens : List Token :=
  [⟨TokenType.Fun, ("fun"), none, 1⟩, ⟨TokenType.Identifier, ("f"), none, 1⟩,
   ⟨TokenType.LeftParen, ("("), none, 1⟩, ⟨TokenType.RightParen, (")"), none, 1⟩,
   ⟨TokenType.LeftBrace, ("\x7b"), none, 1⟩, ⟨TokenType.RightBrace, ("\x7d"), none, 1⟩,
   ⟨TokenType.Eof, (""), none, 1⟩]

/-- The token sequence of a return statement, ending in Eof. -/
def c2_return_tokens : List Token :=
  [⟨TokenType.Return, ("return"), none, 1⟩, ⟨TokenType.Semicolon, (";"), none, 1⟩,
   ⟨TokenType.Eof, (""), none, 1⟩]

/-- The token sequence of f(a)(b), ending in Eof. -/
def c5_tokens : List Token :=
  [⟨TokenType.Identifier, ("f"), none, 1⟩, ⟨TokenType.LeftParen, ("("), none, 1⟩,
   ⟨TokenType.Identifier, ("a"), none, 1⟩, ⟨TokenType.RightParen, (")"), none, 1⟩,
   ⟨TokenType.LeftParen, ("("), none, 1⟩, ⟨TokenType.Identifier, ("b"), none, 1⟩,
   ⟨TokenType.RightParen, (")"), none, 1⟩, ⟨TokenType.Eof, (""), none, 1⟩]

/-- True exactly when an expression is a Call whose callee is itself a
Call. -/
def callee_is_call : Expr → Bool
  | Expr.Call c _ _ =>
    match c with
    | Expr.Call _ _ _ => true
    | _ => false
  | _ => false

/-- The lexer output for the source text break followed by a
semicolon. -/
def break_tokens : List Token :=
  [⟨TokenType.Identifier, ("break"), none, 1⟩, ⟨TokenType.Semicolon, (";"), none, 1⟩,
   ⟨TokenType.Eof, (""), none, 1⟩]

/-- The lexer output for the source text continue followed by a
semicolon. -/
def continue_tokens : List Token :=
  [⟨TokenType.Identifier, ("continue"), none, 1⟩, ⟨TokenType.Semicolon, (";"), none, 1⟩,
   ⟨TokenType.Eof, (""), none, 1⟩]

/-- Token types on which Parser::statement can make no progress: they
begin no statement, no primary expression, and are not one of the
operator or semicolon tokens the expression productions would consume.
The three listed here are the ones the claim theorems use. -/
def stuck_start : TokenType → Bool
  | .RightParen => true
  | .Fun => true
  | .Return => true
  | _ => false

def true_lit : Expr := Expr.Literal ⟨TokenType.True, ("true"), none, 1⟩

def if_token : Token := ⟨TokenType.If, ("if"), none, 1⟩

def then_stmt : Stmt := Stmt.Print (num_lit 1 ("1") 1)

def junk_stmt : Stmt := Stmt.Print (num_lit 9 ("9") 2)

/-! ## Claim theorems -/

/-- C6: evaluating the equality operators never produces a runtime
error: every pair of values yields an ok Boolean; same-type Float,
String and Boolean pairs compare by value; and every pair that is not a
same-type Float, String or Boolean pair (cross-type pairs and every
pair involving Nil, including Nil with Nil) yields false under the
equality operator and true under the inequality operator. -/
theorem c6_equality_never_errors :
    ∀ (line : Nat) (l r : MskValue),
      ((∃ b1, evaluate_binary (eq_token line) l r = .ok (.Boolean b1)) ∧
       (∃ b2, evaluate_binary (neq_token line) l r = .ok (.Boolean b2))) ∧
      (∀ x y : ℚ,
        evaluate_binary (eq_token line) (.Float x) (.Float y) = .ok (.Boolean (decide (x = y))) ∧
        evaluate_binary (neq_token line) (.Float x) (.Float y) = .ok (.Boolean (decide (x ≠ y)))) ∧
      (∀ s t : String,
        evaluate_binary (eq_token line) (.String s) (.String t) = .ok (.Boolean (decide (s = t))) ∧
        evaluate_binary (neq_token line) (.String s) (.String t) = .ok (.Boolean (decide (s ≠ t)))) ∧
      (∀ a b : Bool,
        evaluate_binary (eq_token line) (.Boolean a) (.Boolean b) = .ok (.Boolean (decide (a = b))) ∧
        evaluate_binary (neq_token line) (.Boolean a) (.Boolean b) = .ok (.Boolean (decide (a ≠ b)))) ∧
      (same_type_fsb l r = false →
        evaluate_binary (eq_token line) l r = .ok (.Boolean false) ∧
        evaluate_binary (neq_token line) l r = .ok (.Boolean true)) := by
  intro line l r
  refine ⟨⟨?_, ?_⟩, fun x y => ⟨rfl, rfl⟩, fun s t => ⟨rfl, rfl⟩, fun a b => ⟨rfl, rfl⟩, ?_⟩
  · cases l <;> cases r <;> exact ⟨_, rfl⟩
  · cases l <;> cases r <;> exact ⟨_, rfl⟩
  · intro h
    cases l <;> cases r <;> simp [same_type_fsb] at h <;> exact ⟨rfl, rfl⟩

/-- Witness for c6_equality_never_errors: the Nil with Nil pair is not
a same-type Float, String or Boolean pair and compares not-equal. -/
theorem c6_equality_never_errors_witness :
    same_type_fsb MskValue.Nil MskValue.Nil = false ∧
    evaluate_binary (eq_token 1) MskValue.Nil MskValue.Nil = .ok (.Boolean false) ∧
    evaluate_binary (neq_token 1) MskValue.Nil MskValue.Nil = .ok (.Boolean true) := by
  have h := (c6_equality_never_errors 1 MskValue.Nil MskValue.Nil).2.2.2.2 rfl
  exact ⟨rfl, h.1, h.2⟩

/-- C7: dividing two Float operands returns a runtime error exactly
when the right operand is zero, and the quotient Float otherwise. -/
theorem c7_division_by_zero_is_error :
    ∀ (line : Nat) (l r : ℚ),
      evaluate_binary (slash_token line) (.Float l) (.Float r) =
        if r = 0 then
          .error (.Error (("[line ") ++ toString line ++ ("] Division by zero is not allowed.")))
        else .ok (.Float (l / r)) := by
  intro line l r
  rfl

/-- C9 counterexample: calling the declared two-parameter function g
with one argument yields the message with the word arguments in it, and
the text cited by the claim does not occur in that message. -/
theorem c9_counterexample_message_text :
    (run 0 30 initial_interpreter (.jExec c9_program)).map
        (fun x => x.2) =
      some (.error (.Error ("[line 7] Expected 2 arguments but got 1."))) ∧
    has_sub (("Expected 2 but got 1.").toList)
        (("[line 7] Expected 2 arguments but got 1.").toList) = false :=
  ⟨rfl, rfl⟩

/-- C9 amended: an arity mismatch on a callable yields the error
message built as line, expected count and actual count in the format
with the word arguments: bracket line N bracket Expected E arguments
but got A period. -/
theorem c9_amended_arity_error_format :
    ∀ (clock : ℚ) (f : Nat) (it : Interpreter) (paren : Token) (fn : CallableVal)
      (args : List MskValue),
      args.length ≠ fn.arity →
      run clock (f + 1) it (.jDispatch paren (.Callable fn) args) =
        some (it, .error (.Error (("[line ") ++ toString paren.line ++ ("] Expected ") ++
          toString fn.arity ++ (" arguments but got ") ++ toString args.length ++ (".")))) := by
  intro clock f it paren fn args h
  simp only [run]
  rw [if_pos h]

/-- Witness for c9_amended_arity_error_format at a two-parameter
function called with one argument from call-site line 7. -/
theorem c9_amended_arity_error_format_witness :
    ([MskValue.Float 1].length ≠
      (CallableVal.UserFunction ("g") [tk_ident ("a") 1, tk_ident ("b") 1]
        (Stmt.Block []) 0).arity) ∧
    run 0 4 initial_interpreter
        (.jDispatch ⟨TokenType.RightParen, (")"), none, 7⟩
          (.Callable (CallableVal.UserFunction ("g") [tk_ident ("a") 1, tk_ident ("b") 1]
            (Stmt.Block []) 0))
          [MskValue.Float 1]) =
      some (initial_interpreter,
        .error (.Error ("[line 7] Expected 2 arguments but got 1."))) := by
  refine ⟨by decide, ?_⟩
  exact c9_amended_arity_error_format 0 3 initial_interpreter
    ⟨TokenType.RightParen, (")"), none, 7⟩
    (CallableVal.UserFunction ("g") [tk_ident ("a") 1, tk_ident ("b") 1] (Stmt.Block []) 0)
    [MskValue.Float 1] (by decide)

/-- C1: UserFunction::call ignores the closure field entirely, so the
new call scope hangs off the current (caller) environment, not the
captured one: the call result is identical for any two closure indices,
and on the concrete program c1_program the free variable x of f
resolves to the caller-local binding 2 rather than the captured global
binding 1. -/
theorem c1_call_scope_parent_is_caller_env :
    (∀ (clock : ℚ) (f : Nat) (it : Interpreter) (n : String) (ps : List Token)
       (b : Stmt) (cl1 cl2 : Nat) (args : List MskValue),
        run clock f it (.jCall (.UserFunction n ps b cl1) args) =
        run clock f it (.jCall (.UserFunction n ps b cl2) args)) ∧
    (run 0 64 initial_interpreter (.jExec c1_program)).map
        (fun x => x.2) =
      some (.ok (.aVal (.Float 2))) := by
  constructor
  · intro clock f it n ps b cl1 cl2 args
    cases f with
    | zero => rfl
    | succ f => rfl
  · rfl

/-- C10: when the condition of an If statement evaluates to a truthy
value, interpret returns the result of the then branch immediately and
the statements after the If in the same sequence are never executed;
likewise for a falsy condition with an else branch present. -/
theorem c10_if_returns_branch_result_immediately :
    ∀ (clock : ℚ) (f : Nat) (it it1 : Interpreter) (nm : Token) (cond : Expr)
      (thenB : Stmt) (elseB : Option Stmt) (v : MskValue) (rest : List Stmt),
      run clock f it (.jEval cond) = some (it1, .ok (.aVal v)) →
      (v.is_true = true →
        run clock (f + 1) it (.jExec (Stmt.If nm cond thenB elseB :: rest)) =
          run clock f it1 (.jExec [thenB])) ∧
      (∀ eb, v.is_true = false → elseB = some eb →
        run clock (f + 1) it (.jExec (Stmt.If nm cond thenB elseB :: rest)) =
          run clock f it1 (.jExec [eb])) := by
  intro clock f it it1 nm cond thenB elseB v rest h
  constructor
  · intro hv
    simp only [run, h, hv, if_true]
  · intro eb hv heb
    subst heb
    simp only [run, h, hv, Bool.false_eq_true, if_false]

/-- Witness for c10_if_returns_branch_result_immediately: a literal
true condition with a trailing statement after the If. -/
theorem c10_if_returns_branch_result_immediately_witness :
    run 0 3 initial_interpreter (.jEval true_lit) =
      some (initial_interpreter, .ok (.aVal (.Boolean true))) ∧
    run 0 4 initial_interpreter
        (.jExec [Stmt.If if_token true_lit then_stmt none, junk_stmt]) =
      run 0 3 initial_interpreter (.jExec [then_stmt]) := by
  refine ⟨rfl, ?_⟩
  exact (c10_if_returns_branch_result_immediately 0 3 initial_interpreter initial_interpreter
    if_token true_lit then_stmt none (.Boolean true) [junk_stmt] rfl).1 rfl

/-- C4: the lexer classifies break and continue as plain identifiers
(they are not in the keyword table), so the parser never sees a Break
or Continue token: the sources break and continue with semicolons parse
as expression statements reading variables named break and continue,
not as Break and Continue statement nodes. -/
theorem c4_break_continue_lex_and_parse :
    scan_tokens ("break;") = some (break_tokens, false) ∧
    parse 50 break_tokens =
      some (some [Stmt.Expression (Expr.Variable ⟨TokenType.Identifier, ("break"), none, 1⟩)],
        false) ∧
    scan_tokens ("continue;") = some (continue_tokens, false) ∧
    parse 50 continue_tokens =
      some (some [Stmt.Expression (Expr.Variable ⟨TokenType.Identifier, ("continue"), none, 1⟩)],
        false) :=
  ⟨rfl, rfl, rfl, rfl⟩

/-- C5 counterexample: parsing f(a)(b) produces the Call node for f(a)
whose callee is the plain Variable f, not a nested Call node. -/
theorem c5_counterexample_flat_call :
    parse_expr 100 c5_tokens =
      some (some (Expr.Call (Expr.Variable ⟨TokenType.Identifier, ("f"), none, 1⟩)
        ⟨TokenType.RightParen, (")"), none, 1⟩
        [Expr.Variable ⟨TokenType.Identifier, ("a"), none, 1⟩]), false) ∧
    (parse_expr 100 c5_tokens).map (fun r => r.1.map callee_is_call) =
      some (some false) :=
  ⟨rfl, rfl⟩

/-- C5 amended: the call rule parses exactly one parenthesized argument
list after a primary: on f(a)(b) it returns the Call node for f(a) and
leaves the position at the second left parenthesis, so the trailing
argument list is not consumed and no chained Call node is built. -/
theorem c5_amended_single_invocation :
    run_expr 100 .jExpression ⟨c5_tokens, 0, false⟩ =
      some (Expr.Call (Expr.Variable ⟨TokenType.Identifier, ("f"), none, 1⟩)
        ⟨TokenType.RightParen, (")"), none, 1⟩
        [Expr.Variable ⟨TokenType.Identifier, ("a"), none, 1⟩],
        ⟨c5_tokens, 4, false⟩) :=
  rfl

/-! ## Parser gets stuck on tokens that begin no statement

When the current token is one of the stuck_start tokens (a lone right
parenthesis, or the fun and return keywords, for which Parser::statement
has no rule), every expression and statement production either runs out
of fuel or returns with the position unchanged and only the sticky error
flag set, so the parse loop never terminates. -/

theorem stuck_cases {tt : TokenType} (h : stuck_start tt = true) :
    tt = TokenType.RightParen ∨ tt = TokenType.Fun ∨ tt = TokenType.Return := by
  cases tt <;> simp_all [stuck_start]

theorem stuck_check_false (p : Parser) (h : stuck_start p.peek.token_type = true)
    (t : TokenType) (ht : stuck_start t = false) : p.check t = false := by
  have hne : p.peek.token_type ≠ t := by
    intro he
    rw [he, ht] at h
    exact Bool.false_ne_true h
  have hne2 : p.peek.token_type ≠ TokenType.Eof := by
    intro he
    rw [he] at h
    simp [stuck_start] at h
  simp [Parser.check, Parser.is_at_end, hne, hne2]

theorem stuck_not_at_end (p : Parser) (h : stuck_start p.peek.token_type = true) :
    p.is_at_end = false := by
  have hne2 : p.peek.token_type ≠ TokenType.Eof := by
    intro he
    rw [he] at h
    simp [stuck_start] at h
  simp [Parser.is_at_end, hne2]

theorem stuck_match_token (p : Parser) (h : stuck_start p.peek.token_type = true)
    (ts : List TokenType) (hts : ∀ t ∈ ts, stuck_start t = false) :
    p.match_token ts = (false, p) := by
  unfold Parser.match_token
  rw [if_neg]
  intro hany
  rcases List.any_eq_true.mp hany with ⟨t, htmem, hcheck⟩
  rw [stuck_check_false p h t (hts t htmem)] at hcheck
  exact Bool.false_ne_true hcheck

theorem stuck_consume (p : Parser) (h : stuck_start p.peek.token_type = true)
    (t : TokenType) (ht : stuck_start t = false) :
    p.consume t = (p.set_error, p.peek) := by
  unfold Parser.consume
  rw [stuck_check_false p h t ht]
  simp

theorem stuck_set_error_peek (p : Parser) : p.set_error.peek = p.peek := rfl

theorem stuck_primary (F : Nat) (p : Parser)
    (h : stuck_start p.peek.token_type = true) :
    run_expr F .jPrimary p = none ∨
    run_expr F .jPrimary p = some (Expr.Literal p.peek, p.set_error) := by
  cases F with
  | zero => exact Or.inl rfl
  | succ F =>
    right
    simp only [run_expr]
    rw [stuck_match_token p h _ (by intro t ht; fin_cases ht <;> rfl),
        stuck_match_token p h _ (by intro t ht; fin_cases ht <;> rfl),
        stuck_match_token p h _ (by intro t ht; fin_cases ht <;> rfl)]
    rfl

theorem stuck_call (F : Nat) (p : Parser)
    (h : stuck_start p.peek.token_type = true) :
    run_expr F .jCall p = none ∨
    run_expr F .jCall p = some (Expr.Literal p.peek, p.set_error) := by
  cases F with
  | zero => exact Or.inl rfl
  | succ F =>
    have h' : stuck_start p.set_error.peek.token_type = true := h
    rcases stuck_primary F p h with hp | hp
    · exact Or.inl (by simp only [run_expr, hp])
    · right
      simp only [run_expr, hp]
      rw [stuck_match_token p.set_error h' _ (by intro t ht; fin_cases ht <;> rfl)]
      rfl

theorem stuck_unary (F : Nat) (p : Parser)
    (h : stuck_start p.peek.token_type = true) :
    run_expr F .jUnary p = none ∨
    run_expr F .jUnary p = some (Expr.Literal p.peek, p.set_error) := by
  cases F with
  | zero => exact Or.inl rfl
  | succ F =>
    rcases stuck_call F p h with hc | hc
    · refine Or.inl ?_
      simp only [run_expr]
      rw [stuck_match_token p h _ (by intro t ht; fin_cases ht <;> rfl)]
      simpa using hc
    · refine Or.inr ?_
      simp only [run_expr]
      rw [stuck_match_token p h _ (by intro t ht; fin_cases ht <;> rfl)]
      simpa using hc

theorem stuck_factor_loop (F : Nat) (p : Parser)
    (h : stuck_start p.peek.token_type = true) (e : Expr) :
    run_expr F (.jFactorLoop e) p = none ∨
    run_expr F (.jFactorLoop e) p = some (e, p) := by
  cases F with
  | zero => exact Or.inl rfl
  | succ F =>
    right
    simp only [run_expr]
    rw [stuck_match_token p h _ (by intro t ht; fin_cases ht <;> rfl)]
    rfl

theorem stuck_factor (F : Nat) (p : Parser)
    (h : stuck_start p.peek.token_type = true) :
    run_expr F .jFactor p = none ∨
    run_expr F .jFactor p = some (Expr.Literal p.peek, p.set_error) := by
  cases F with
  | zero => exact Or.inl rfl
  | succ F =>
    have h' : stuck_start p.set_error.peek.token_type = true := h
    rcases stuck_unary F p h with hu | hu
    · exact Or.inl (by simp only [run_expr, hu])
    · rcases stuck_factor_loop F p.set_error h' (Expr.Literal p.peek) with hl | hl
      · exact Or.inl (by simp only [run_expr, hu, hl])
      · exact Or.inr (by simp only [run_expr, hu, hl])

theorem stuck_term_loop (F : Nat) (p : Parser)
    (h : stuck_start p.peek.token_type = true) (e : Expr) :
    run_expr F (.jTermLoop e) p = none ∨
    run_expr F (.jTermLoop e) p = some (e, p) := by
  cases F with
  | zero => exact Or.inl rfl
  | succ F =>
    right
    simp only [run_expr]
    rw [stuck_match_token p h _ (by intro t ht; fin_cases ht <;> rfl)]
    rfl

theorem stuck_term (F : Nat) (p : Parser)
    (h : stuck_start p.peek.token_type = true) :
    run_expr F .jTerm p = none ∨
    run_expr F .jTerm p = some (Expr.Literal p.peek, p.set_error) := by
  cases F with
  | zero => exact Or.inl rfl
  | succ F =>
    have h' : stuck_start p.set_error.peek.token_type = true := h
    rcases stuck_factor F p h with hu | hu
    · exact Or.inl (by simp only [run_expr, hu])
    · rcases stuck_term_loop F p.set_error h' (Expr.Literal p.peek) with hl | hl
      · exact Or.inl (by simp only [run_expr, hu, hl])
      · exact Or.inr (by simp only [run_expr, hu, hl])

theorem stuck_comparison_loop (F : Nat) (p : Parser)
    (h : stuck_start p.peek.token_type = true) (e : Expr) :
    run_expr F (.jComparisonLoop e) p = none ∨
    run_expr F (.jComparisonLoop e) p = some (e, p) := by
  cases F with
  | zero => exact Or.inl rfl
  | succ F =>
    right
    simp only [run_expr]
    rw [stuck_match_token p h _ (by intro t ht; fin_cases ht <;> rfl)]
    rfl

theorem stuck_comparison (F : Nat) (p : Parser)
    (h : stuck_start p.peek.token_type = true) :
    run_expr F .jComparison p = none ∨
    run_expr F .jComparison p = some (Expr.Literal p.peek, p.set_error) := by
  cases F with
  | zero => exact Or.inl rfl
  | succ F =>
    have h' : stuck_start p.set_error.peek.token_type = true := h
    rcases stuck_term F p h with hu | hu
    · exact Or.inl (by simp only [run_expr, hu])
    · rcases stuck_comparison_loop F p.set_error h' (Expr.Literal p.peek) with hl | hl
      · exact Or.inl (by simp only [run_expr, hu, hl])
      · exact Or.inr (by simp only [run_expr, hu, hl])

theorem stuck_equality (F : Nat) (p : Parser)
    (h : stuck_start p.peek.token_type = true) :
    run_expr F .jEquality p = none ∨
    run_expr F .jEquality p = some (Expr.Literal p.peek, p.set_error) := by
  cases F with
  | zero => exact Or.inl rfl
  | succ F =>
    have h' : stuck_start p.set_error.peek.token_type = true := h
    rcases stuck_comparison F p h with hu | hu
    · exact Or.inl (by simp only [run_expr, hu])
    · refine Or.inr ?_
      simp only [run_expr, hu]
      rw [stuck_match_token p.set_error h' _ (by intro t ht; fin_cases ht <;> rfl)]
      rfl

theorem stuck_logic_loop (F : Nat) (p : Parser)
    (h : stuck_start p.peek.token_type = true) (e : Expr) :
    run_expr F (.jLogicLoop e) p = none ∨
    run_expr F (.jLogicLoop e) p = some (e, p) := by
  cases F with
  | zero => exact Or.inl rfl
  | succ F =>
    right
    simp only [run_expr]
    rw [stuck_match_token p h _ (by intro t ht; fin_cases ht <;> rfl)]
    rfl

theorem stuck_logic (F : Nat) (p : Parser)
    (h : stuck_start p.peek.token_type = true) :
    run_expr F .jLogic p = none ∨
    run_expr F .jLogic p = some (Expr.Literal p.peek, p.set_error) := by
  cases F with
  | zero => exact Or.inl rfl
  | succ F =>
    have h' : stuck_start p.set_error.peek.token_type = true := h
    rcases stuck_equality F p h with hu | hu
    · exact Or.inl (by simp only [run_expr, hu])
    · rcases stuck_logic_loop F p.set_error h' (Expr.Literal p.peek) with hl | hl
      · exact Or.inl (by simp only [run_expr, hu, hl])
      · exact Or.inr (by simp only [run_expr, hu, hl])

theorem stuck_assignment (F : Nat) (p : Parser)
    (h : stuck_start p.peek.token_type = true) :
    run_expr F .jAssignment p = none ∨
    run_expr F .jAssignment p = some (Expr.Literal p.peek, p.set_error) := by
  cases F with
  | zero => exact Or.inl rfl
  | succ F =>
    have h' : stuck_start p.set_error.peek.token_type = true := h
    rcases stuck_logic F p h with hu | hu
    · exact Or.inl (by simp only [run_expr, hu])
    · refine Or.inr ?_
      simp only [run_expr, hu]
      rw [stuck_match_token p.set_error h' _ (by intro t ht; fin_cases ht <;> rfl)]
      rfl

theorem stuck_expression (F : Nat) (p : Parser)
    (h : stuck_start p.peek.token_type = true) :
    run_expr F .jExpression p = none ∨
    run_expr F .jExpression p = some (Expr.Literal p.peek, p.set_error) := by
  cases F with
  | zero => exact Or.inl rfl
  | succ F =>
    rcases stuck_assignment F p h with hu | hu
    · exact Or.inl (by simp only [run_expr, hu])
    · exact Or.inr (by simp only [run_expr, hu])

set_option maxHeartbeats 1000000 in
theorem stuck_expr_statement (F : Nat) (p : Parser)
    (h : stuck_start p.peek.token_type = true) :
    run_stmt F .sExprStmt p = none ∨
    run_stmt F .sExprStmt p = some (Stmt.Expression (Expr.Literal p.peek), p.set_error) := by
  cases F with
  | zero => exact Or.inl rfl
  | succ F =>
    have h' : stuck_start p.set_error.peek.token_type = true := h
    rcases stuck_expression F p h with hu | hu
    · exact Or.inl (by simp only [run_stmt, run_stmt_step, hu])
    · refine Or.inr ?_
      simp only [run_stmt, run_stmt_step, hu]
      rw [stuck_consume p.set_error h' TokenType.Semicolon rfl]
      rfl

theorem stuck_statement (F : Nat) (p : Parser)
    (h : stuck_start p.peek.token_type = true) :
    run_stmt F .sStatement p = none ∨
    run_stmt F .sStatement p = some (Stmt.Expression (Expr.Literal p.peek), p.set_error) := by
  cases F with
  | zero => exact Or.inl rfl
  | succ F =>
    have m1 : p.match_token [TokenType.While] = (false, p) :=
      stuck_match_token p h _ (by intro t ht; fin_cases ht <;> rfl)
    have m2 : p.match_token [TokenType.For] = (false, p) :=
      stuck_match_token p h _ (by intro t ht; fin_cases ht <;> rfl)
    have m3 : p.match_token [TokenType.LeftBrace] = (false, p) :=
      stuck_match_token p h _ (by intro t ht; fin_cases ht <;> rfl)
    have m4 : p.match_token [TokenType.If] = (false, p) :=
      stuck_match_token p h _ (by intro t ht; fin_cases ht <;> rfl)
    have m5 : p.match_token [TokenType.Var] = (false, p) :=
      stuck_match_token p h _ (by intro t ht; fin_cases ht <;> rfl)
    have m6 : p.match_token [TokenType.Print] = (false, p) :=
      stuck_match_token p h _ (by intro t ht; fin_cases ht <;> rfl)
    have m7 : p.match_token [TokenType.Break] = (false, p) :=
      stuck_match_token p h _ (by intro t ht; fin_cases ht <;> rfl)
    have m8 : p.match_token [TokenType.Continue] = (false, p) :=
      stuck_match_token p h _ (by intro t ht; fin_cases ht <;> rfl)
    have hstep : run_stmt (F + 1) .sStatement p = run_stmt F .sExprStmt p := by
      show run_stmt_step (run_expr F) (run_stmt F) .sStatement p = run_stmt F .sExprStmt p
      unfold run_stmt_step
      rw [m1]; dsimp only []
      rw [m2]; dsimp only []
      rw [m3]; dsimp only []
      rw [m4]; dsimp only []
      rw [m5]; dsimp only []
      rw [m6]; dsimp only []
      rw [m7]; dsimp only []
      rw [m8]
      rfl
    rcases stuck_expr_statement F p h with hu | hu
    · exact Or.inl (hstep.trans hu)
    · exact Or.inr (hstep.trans hu)

theorem stuck_parse_loop (F : Nat) :
    ∀ (p : Parser) (acc : List Stmt), stuck_start p.peek.token_type = true →
      parse_loop F p acc = none := by
  induction F with
  | zero => intro p acc _; rfl
  | succ F ih =>
    intro p acc h
    have h' : stuck_start p.set_error.peek.token_type = true := h
    simp only [parse_loop, stuck_not_at_end p h]
    rcases stuck_statement F p h with hs | hs
    · simp only [hs, Bool.false_eq_true, if_false]
    · simp only [hs, Bool.false_eq_true, if_false]
      exact ih p.set_error (acc ++ [Stmt.Expression (Expr.Literal p.peek)]) h'

theorem stuck_parse (F : Nat) (tokens : List Token)
    (h : stuck_start (Parser.peek ⟨tokens, 0, false⟩).token_type = true) :
    parse F tokens = none := by
  unfold parse
  have hne : (Parser.peek ⟨tokens, 0, false⟩).token_type ≠ TokenType.Eof := by
    intro he
    rw [he] at h
    simp [stuck_start] at h
  rw [if_neg hne, stuck_parse_loop F ⟨tokens, 0, false⟩ [] h]

/-- C3: Parser::parse does NOT terminate on the malformed token
sequence of a lone right parenthesis followed by Eof: for every fuel
bound the model runs out of fuel, because the error path of primary
consumes no token and the parse loop repeats the same position forever.
-/
theorem c3_parse_diverges_on_right_paren :
    ∀ F : Nat, parse F c3_tokens = none :=
  fun F => stuck_parse F c3_tokens rfl

/-- C2: Parser::statement has no rule for fun declarations or return
statements; both keywords fall into expression parsing, whose error
path consumes no token, so the parser never produces a Function or
Return node on these inputs and in fact never terminates: for every
fuel bound the model runs out of fuel. -/
theorem c2_fun_and_return_not_parsed :
    (∀ F : Nat, parse F c2_fun_tokens = none) ∧
    (∀ F : Nat, parse F c2_return_tokens = none) :=
  ⟨fun F => stuck_parse F c2_fun_tokens rfl,
   fun F => stuck_parse F c2_return_tokens rfl⟩

/-! ## The For statement agrees with the spec reference semantics -/

theorem for_loop_some_eq (clock : ℚ) (c : Expr) (inc : Option Stmt) (body : Stmt) :
    ∀ (f : Nat) (it : Interpreter),
      run clock f it (.jForLoopSome c inc body) = forRefLoop clock f it (some c) inc body := by
  intro f
  induction f with
  | zero => intro it; rfl
  | succ f ih =>
    intro it
    simp only [run, forRefLoop]
    rcases h1 : run clock f it (.jEval c) with _ | ⟨it1, er | a⟩
    · simp only [h1]
    · simp only [h1]
    · rcases a with v | vs
      · simp only [h1]
        cases hv : v.is_true with
        | false => simp [hv]
        | true =>
          simp only [hv, if_true]
          rcases h2 : run clock f it1 (.jExec [body]) with _ | ⟨it2, er2 | a2⟩
          · simp only [h2]
          · rcases er2 with m | cf
            · simp only [h2]
            · cases cf with
              | Break => simp only [h2]
              | Continue =>
                simp only [h2]
                rcases inc with _ | istmt
                · exact ih it2
                · rcases h3 : run clock f it2 (.jExec [istmt]) with _ | ⟨it3, er3 | a3⟩
                  · simp only [h3]
                  · simp only [h3]
                  · simp only [h3]
                    exact ih it3
              | Return v2 => simp only [h2]
          · simp only [h2]
            rcases inc with _ | istmt
            · exact ih it2
            · rcases h3 : run clock f it2 (.jExec [istmt]) with _ | ⟨it3, er3 | a3⟩
              · simp only [h3]
              · simp only [h3]
              · simp only [h3]
                exact ih it3
      · simp only [h1]

theorem for_loop_none_eq (clock : ℚ) (inc : Option Stmt) (body : Stmt) :
    ∀ (f : Nat) (it : Interpreter),
      run clock f it (.jForLoopNone inc body) = forRefLoop clock f it none inc body := by
  intro f
  induction f with
  | zero => intro it; rfl
  | succ f ih =>
    intro it
    simp only [run, forRefLoop, MskValue.is_true, eq_self_iff_true, if_true]
    rcases h2 : run clock f it (.jExec [body]) with _ | ⟨it2, er2 | a2⟩
    · simp only [h2]
    · rcases er2 with m | cf
      · simp only [h2]
      · cases cf with
        | Break => simp only [h2]
        | Continue =>
          simp only [h2]
          rcases inc with _ | istmt
          · exact ih it2
          · rcases h3 : run clock f it2 (.jExec [istmt]) with _ | ⟨it3, er3 | a3⟩
            · simp only [h3]
            · simp only [h3]
            · simp only [h3]
              exact ih it3
        | Return v2 => simp only [h2]
    · simp only [h2]
      rcases inc with _ | istmt
      · exact ih it2
      · rcases h3 : run clock f it2 (.jExec [istmt]) with _ | ⟨it3, er3 | a3⟩
        · simp only [h3]
        · simp only [h3]
        · simp only [h3]
          exact ih it3

/-- C8: executing a For statement is exactly the reference semantics
built from the spec: the initializer runs once in a dedicated child
scope that encloses the whole loop; the loop behaves like While over
the condition, defaulting to always-true when the condition is omitted;
and the increment is evaluated after every iteration of the body,
including after an iteration ended by a Continue signal, but not after
a Break signal ends the loop. On normal completion execution continues
with the rest of the statement sequence, and the scope is closed on
every exit path. -/
theorem c8_for_matches_spec_reference :
    ∀ (clock : ℚ) (f : Nat) (it : Interpreter) (nm : Token) (ini : Option Stmt)
      (cond : Option Expr) (inc : Option Stmt) (body : Stmt) (rest : List Stmt),
      run clock (f + 1) it (.jExec (Stmt.For nm ini cond inc body :: rest)) =
        match forReference clock f it ini cond inc body with
        | none => none
        | some (it2, .error er) => some (it2, .error er)
        | some (it2, .ok _) => run clock f it2 (.jExec rest) := by
  intro clock f it nm ini cond inc body rest
  have hloop : ∀ it2 : Interpreter,
      (match cond with
        | some c => run clock f it2 (.jForLoopSome c inc body)
        | none => run clock f it2 (.jForLoopNone inc body)) =
      forRefLoop clock f it2 cond inc body := by
    intro it2
    rcases cond with _ | c
    · exact for_loop_none_eq clock inc body f it2
    · exact for_loop_some_eq clock c inc body f it2
  simp only [run, forReference]
  rcases ini with _ | i
  · simp only []
    rw [hloop it.begin_scope]
    rcases hfr : forRefLoop clock f it.begin_scope cond inc body with _ | ⟨it3, er | a⟩
    · simp only [hfr]
    · simp only [hfr]
    · simp only [hfr]
  · rcases hini : run clock f it.begin_scope (.jExec [i]) with _ | ⟨it2, er | a⟩
    · simp only [hini]
    · simp only [hini]
    · simp only [hini]
      rw [hloop it2]
      rcases hfr : forRefLoop clock f it2 cond inc body with _ | ⟨it3, er | a3⟩
      · simp only [hfr]
      · simp only [hfr]
      · simp only [hfr]

end Msk
